import Mathlib

/-!
Verification of the `core-js-101` repository's specified components against a
shallow Lean embedding of the source.

Embedded source files:
  * `src/05-objects-tasks.js` — the `Rectangle` factory and the
    `CssSelectorBuilderClass` fluent CSS-selector builder.
  * the date-utilities file — `isLeapYear` and `angleBetweenClockHands`.

JavaScript strings are modelled as `String`; the truthiness test
`if (this.fieldX)` on a string field is `fieldX ≠ ""`.  Thrown errors are
modelled by `Except`: the two distinct error messages of the builder become
the two constructors of `SelErr`.
-/

/-! ### Rectangle (src/05-objects-tasks.js, lines 23–30)

`function Rectangle(widthe, heighte)` returns a plain object
`{ width: widthe, height: heighte, getArea: () => widthe * heighte }`.
The `getArea` closure captures the constructor parameters, so it is a
function stored in the record; field mutation of the returned object is
record update, which leaves the stored closure untouched. -/

structure Rect where
  width : Int
  height : Int
  getArea : Unit → Int

def Rectangle (widthe heighte : Int) : Rect :=
  { width := widthe, height := heighte, getArea := fun _ => widthe * heighte }

/-! ### CssSelectorBuilderClass state (lines 128–138)

The constructor initialises the six fragment fields to the empty string. -/

structure Sel where
  cssElement : String
  cssId : String
  cssClass : String
  cssAttr : String
  cssPseudoClass : String
  cssPseudoElement : String
deriving DecidableEq, Repr

/-- Constructor `duplicate` models the message "Element, id and pseudo-element should not
occur more then one time inside the selector"; `order` models "Selector parts
should be arranged in the following order: element, id, class, attribute,
pseudo-class, pseudo-element". -/
inductive SelErr where
  | duplicate
  | order
deriving DecidableEq, Repr

/-- The exported base instance `cssSelectorBuilder = new CssSelectorBuilderClass()`:
all six fragment fields are the empty string. -/
def cssSelectorBuilder : Sel :=
  { cssElement := "", cssId := "", cssClass := "", cssAttr := "",
    cssPseudoClass := "", cssPseudoElement := "" }

/-! ### stringify (lines 140–149)

Each local `const` of the source becomes one part function; `stringify`
concatenates the six parts. -/

def elementPart (s : Sel) : String :=
  if s.cssElement ≠ "" then s.cssElement else ""

def idPart (s : Sel) : String :=
  if s.cssId ≠ "" then "#" ++ s.cssId else ""

def clasPart (s : Sel) : String :=
  if s.cssClass ≠ "" then s.cssClass else ""

def attrPart (s : Sel) : String :=
  if s.cssAttr ≠ "" then "[" ++ s.cssAttr ++ "]" else ""

def psClasPart (s : Sel) : String :=
  if s.cssPseudoClass ≠ "" then s.cssPseudoClass else ""

def psElemPart (s : Sel) : String :=
  if s.cssPseudoElement ≠ "" then "::" ++ s.cssPseudoElement else ""

def Sel.stringify (s : Sel) : String :=
  elementPart s ++ idPart s ++ clasPart s ++ attrPart s ++ psClasPart s ++ psElemPart s

/-! ### The six builder methods (lines 151–221)

Each method first runs its guard `if`s (throw = `Except.error`), then copies
the receiver (`Object.create` + `Object.assign`), mutates the single field on
the copy, and returns the copy — i.e. returns a record update of the input.
`class` and `pseudoClass` append `"." + value` / `":" + value` to the
accumulated pre-rendered field. -/

def Sel.element (s : Sel) (value : String) : Except SelErr Sel :=
  if s.cssElement ≠ "" then .error .duplicate
  else if s.cssId ≠ "" ∨ s.cssClass ≠ "" ∨ s.cssAttr ≠ "" ∨
          s.cssPseudoClass ≠ "" ∨ s.cssPseudoElement ≠ "" then .error .order
  else .ok { s with cssElement := value }

def Sel.id (s : Sel) (value : String) : Except SelErr Sel :=
  if s.cssId ≠ "" then .error .duplicate
  else if s.cssClass ≠ "" ∨ s.cssAttr ≠ "" ∨
          s.cssPseudoClass ≠ "" ∨ s.cssPseudoElement ≠ "" then .error .order
  else .ok { s with cssId := value }

/-- The source method is named `class` (a Lean keyword), hence `cls` here. -/
def Sel.cls (s : Sel) (value : String) : Except SelErr Sel :=
  if s.cssAttr ≠ "" ∨ s.cssPseudoClass ≠ "" ∨ s.cssPseudoElement ≠ "" then .error .order
  else .ok { s with cssClass := s.cssClass ++ "." ++ value }

def Sel.attr (s : Sel) (value : String) : Except SelErr Sel :=
  if s.cssPseudoClass ≠ "" ∨ s.cssPseudoElement ≠ "" then .error .order
  else .ok { s with cssAttr := value }

def Sel.pseudoClass (s : Sel) (value : String) : Except SelErr Sel :=
  if s.cssPseudoElement ≠ "" then .error .order
  else .ok { s with cssPseudoClass := s.cssPseudoClass ++ ":" ++ value }

def Sel.pseudoElement (s : Sel) (value : String) : Except SelErr Sel :=
  if s.cssPseudoElement ≠ "" then .error .duplicate
  else .ok { s with cssPseudoElement := value }

/-! ### combine (lines 223–230)

`combine` renders both arguments at call time and stores the two rendered
strings and the combinator; the stored `stringify` closure of the combined
object produces `s1 ++ " " ++ c ++ " " ++ s2`.  A selector value is therefore
either a fragment set or such a combined triple. -/

inductive Obj where
  | sel (s : Sel)
  | comb (s1 c s2 : String)
deriving DecidableEq, Repr

def Obj.stringify : Obj → String
  | .sel s => s.stringify
  | .comb s1 c s2 => s1 ++ " " ++ c ++ " " ++ s2

def combine (selector1 : Obj) (combinator : String) (selector2 : Obj) : Obj :=
  .comb selector1.stringify combinator selector2.stringify

/-! ### Derivation chains

A derivation chain is a list of fragment-method calls applied in order,
starting (in the theorems below) from the exported base builder. -/

inductive FragOp where
  | elementOp (v : String)
  | idOp (v : String)
  | clsOp (v : String)
  | attrOp (v : String)
  | pseudoClassOp (v : String)
  | pseudoElementOp (v : String)
deriving DecidableEq, Repr

def Sel.apply (s : Sel) : FragOp → Except SelErr Sel
  | .elementOp v => s.element v
  | .idOp v => s.id v
  | .clsOp v => s.cls v
  | .attrOp v => s.attr v
  | .pseudoClassOp v => s.pseudoClass v
  | .pseudoElementOp v => s.pseudoElement v

def runChain : Sel → List FragOp → Except SelErr Sel
  | s, [] => .ok s
  | s, op :: rest =>
    match s.apply op with
    | .ok s1 => runChain s1 rest
    | .error e => .error e

/-! ### Fragment kinds and their fixed order -/

inductive Kind where
  | kElement
  | kId
  | kClass
  | kAttr
  | kPseudoClass
  | kPseudoElement
deriving DecidableEq, Repr

/-- Position of the kind in the fixed order
element, id, class, attribute, pseudo-class, pseudo-element. -/
def Kind.rank : Kind → Nat
  | .kElement => 0
  | .kId => 1
  | .kClass => 2
  | .kAttr => 3
  | .kPseudoClass => 4
  | .kPseudoElement => 5

/-- The singleton kinds: at most one occurrence inside a selector. -/
def Kind.isSingleton : Kind → Bool
  | .kElement | .kId | .kPseudoElement => true
  | .kClass | .kAttr | .kPseudoClass => false

def FragOp.kind : FragOp → Kind
  | .elementOp _ => .kElement
  | .idOp _ => .kId
  | .clsOp _ => .kClass
  | .attrOp _ => .kAttr
  | .pseudoClassOp _ => .kPseudoClass
  | .pseudoElementOp _ => .kPseudoElement

/-- A fragment kind is present in the set when its (pre-rendered) field is a
nonempty string — the JavaScript truthiness test used by every guard. -/
def Sel.present (s : Sel) : Kind → Bool
  | .kElement => s.cssElement != ""
  | .kId => s.cssId != ""
  | .kClass => s.cssClass != ""
  | .kAttr => s.cssAttr != ""
  | .kPseudoClass => s.cssPseudoClass != ""
  | .kPseudoElement => s.cssPseudoElement != ""

/-! ### Declarative rendering of a chain (the specification's wording)

Modelled from the spec: `stringify` concatenates, in fixed order, the
element token, `#id` when present, each class as `.token` in insertion
order, `[attribute]` when present, each pseudo-class as `:token` in
insertion order, and `::pseudoElement` when present.  The token of each
singleton kind is the value of that kind's last call in the chain (the
source's `attr` overwrites; `element`, `id`, `pseudoElement` can be called
at most once with a nonempty token). -/

def elemStep (acc : String) : FragOp → String
  | .elementOp v => v
  | _ => acc

def idStep (acc : String) : FragOp → String
  | .idOp v => v
  | _ => acc

def attrStep (acc : String) : FragOp → String
  | .attrOp v => v
  | _ => acc

def psElemStep (acc : String) : FragOp → String
  | .pseudoElementOp v => v
  | _ => acc

def elemOf (ops : List FragOp) : String := ops.foldl elemStep ""

def idOf (ops : List FragOp) : String := ops.foldl idStep ""

def attrOf (ops : List FragOp) : String := ops.foldl attrStep ""

def psElemOf (ops : List FragOp) : String := ops.foldl psElemStep ""

def classesOf : List FragOp → List String
  | [] => []
  | .clsOp v :: rest => v :: classesOf rest
  | _ :: rest => classesOf rest

def pseudoClassesOf : List FragOp → List String
  | [] => []
  | .pseudoClassOp v :: rest => v :: pseudoClassesOf rest
  | _ :: rest => pseudoClassesOf rest

/-- Each token rendered with the given one-character CSS marker in front,
in list (= insertion) order, with no other separators. -/
def renderTokens (marker : String) : List String → String
  | [] => ""
  | t :: rest => marker ++ t ++ renderTokens marker rest

def specRender (ops : List FragOp) : String :=
  elemOf ops
    ++ (if idOf ops ≠ "" then "#" ++ idOf ops else "")
    ++ renderTokens "." (classesOf ops)
    ++ (if attrOf ops ≠ "" then "[" ++ attrOf ops ++ "]" else "")
    ++ renderTokens ":" (pseudoClassesOf ops)
    ++ (if psElemOf ops ≠ "" then "::" ++ psElemOf ops else "")

/-! ### Object-store model of the copy-on-derivation lifecycle

Every method executes `const o = Object.create(this); Object.assign(o, this);`
then mutates only `o` and returns it: a fresh object is allocated and no
existing object is written.  The store is the list of allocated selector
objects; a step addresses the receiver (and for `combine` the two argument
selectors) by index and allocates the derived object at the end.  `none`
means the step is outside the modelled domain (a dangling index, or a
fragment method invoked on a combined object). -/

inductive StoreOp where
  | frag (i : Nat) (op : FragOp)
  | combineAt (i1 : Nat) (c : String) (i2 : Nat)
deriving DecidableEq, Repr

def stepS (st : List Obj) : StoreOp → Option (Except SelErr (List Obj × Nat))
  | .frag i fo =>
    match st[i]? with
    | some (.sel s) =>
      match s.apply fo with
      | .ok s1 => some (.ok (st ++ [.sel s1], st.length))
      | .error e => some (.error e)
    | _ => none
  | .combineAt i1 c i2 =>
    match st[i1]?, st[i2]? with
    | some a, some b => some (.ok (st ++ [.comb a.stringify c b.stringify], st.length))
    | _, _ => none

/-! ### isLeapYear (date-utilities file, lines 56–63)

The source builds `new Date(new Date(date).getFullYear(), 1, 29)` and tests
`getDate() === 29`.  The input date is modelled by its (local) full year.
`jsDateYear` models the ECMAScript `Date(year, month, day)` constructor rule
that a year argument in 0–99 denotes 1900 + year; `febTwentyNineDayOfMonth`
models the day-of-month normalisation of "February 29" (it stays the 29th
when February has 29 days, otherwise it overflows to March (29 − 28 = 1)). -/

def gregorianLeap (y : Int) : Bool :=
  y % 4 == 0 && (y % 100 != 0 || y % 400 == 0)

def jsDateYear (y : Int) : Int :=
  if 0 ≤ y ∧ y ≤ 99 then 1900 + y else y

def daysInFebruary (y : Int) : Int :=
  if gregorianLeap y then 29 else 28

def febTwentyNineDayOfMonth (y : Int) : Int :=
  if 29 ≤ daysInFebruary y then 29 else 29 - daysInFebruary y

def isLeapYear (yearOfDate : Int) : Bool :=
  febTwentyNineDayOfMonth (jsDateYear yearOfDate) == 29

/-! ### angleBetweenClockHands (date-utilities file, lines 124–157)

The input date is modelled by its UTC-hour field `h` (0–23) and its minute
field `m` (0–59); all arithmetic of the source is exact here (`resMarks`
computes in ℚ the source's `res`, measured in minute marks), so the
floating-point fudge line `if (result === 0.47996554429844085) ...` is kept
with its decimal literals read as exact rationals — in exact arithmetic its
guard can still be tested, and it is never taken at the inputs used below. -/

def resMarks (h m : Nat) : ℚ :=
  let hours1 := if h = 12 then 0 else h
  let minutes1 := if m = 60 then 0 else m
  let hours2 := if m = 60 then hours1 + 1 else hours1
  let hours3 := if hours2 > 12 then hours2 - 12 else hours2
  let htom0 : ℚ := (hours3 : ℚ) * 5 + (minutes1 : ℚ) * (5 / 60)
  let htom : ℚ := if htom0 > 30 then htom0 - 30 else htom0
  let mins : ℚ := if minutes1 > 30 then (minutes1 : ℚ) - 30 else (minutes1 : ℚ)
  if htom > mins then htom - mins
  else if mins > htom then mins - htom
  else 0

open Classical in
noncomputable def angleBetweenClockHands (h m : Nat) : ℝ :=
  let result : ℝ := Real.pi / 30 * (resMarks h m : ℝ)
  if result = 0.47996554429844085 then 0.4799655442984406 else result

open Classical in
/-- Modelled from the spec: the angle between the hour hand (positioned from
the hour field, advancing with the minutes) and the minute hand, folded into
the shorter of the two arcs, in radians.  The hour hand stands at
`2π · (h mod 12 + m/60) / 12`, the minute hand at `2π · m / 60`. -/
noncomputable def shorterArcAngle (h m : Nat) : ℝ :=
  let hourAngle : ℝ := 2 * Real.pi * (((h % 12 : Nat) : ℝ) + (m : ℝ) / 60) / 12
  let minuteAngle : ℝ := 2 * Real.pi * (m : ℝ) / 60
  let d : ℝ := |hourAngle - minuteAngle|
  min d (2 * Real.pi - d)

/-! ## Claim theorems -/

/-- C1, counterexample: the claim says `getArea()` reads the object's current
`width`/`height` fields at call time, so that after mutating `width` to `5`
on `Rectangle 10 20` it would return `5 * 20 = 100`; in fact the closure
captured the constructor arguments and still returns `200`. -/
theorem rectangle_area_mutation_cex :
    ¬ (({ Rectangle 10 20 with width := 5 }).getArea () =
       ({ Rectangle 10 20 with width := 5 }).width *
       ({ Rectangle 10 20 with width := 5 }).height) := by
  decide

/-- C1, amended: `getArea()` always returns the product of the
construction-time arguments; mutating the returned object's `width` or
`height` field does not change the value `getArea()` returns. -/
theorem rectangle_getArea_from_construction (w h w' h' : Int) :
    (Rectangle w h).getArea () = w * h ∧
    ({ Rectangle w h with width := w' }).getArea () = w * h ∧
    ({ Rectangle w h with height := h' }).getArea () = w * h :=
  ⟨rfl, rfl, rfl⟩

/-- C4: for every two selector values `a`, `b` (fragment sets or already
combined values) and every combinator string `c`,
`combine a c b |>.stringify` is `a.stringify ++ " " ++ c ++ " " ++ b.stringify`,
the combinator passed through verbatim. -/
theorem combine_stringify (a b : Obj) (c : String) :
    (combine a c b).stringify = a.stringify ++ " " ++ c ++ " " ++ b.stringify :=
  rfl

/-- C5: calling `element` when `element` is already set, `id` when `id` is
already set, and `pseudoElement` when `pseudoElement` is already set each
fail with the duplicate-violation error (never the order error, never
success). -/
theorem singleton_set_twice_duplicate (s : Sel) (v : String) :
    (s.cssElement ≠ "" → s.element v = .error .duplicate) ∧
    (s.cssId ≠ "" → s.id v = .error .duplicate) ∧
    (s.cssPseudoElement ≠ "" → s.pseudoElement v = .error .duplicate) := by
  refine ⟨fun hne => ?_, fun hne => ?_, fun hne => ?_⟩ <;>
    simp [Sel.element, Sel.id, Sel.pseudoElement, hne]

/-- C5, witness at concrete states with the respective singleton set. -/
theorem singleton_set_twice_duplicate_witness :
    Sel.element ⟨"div", "", "", "", "", ""⟩ "p" = .error .duplicate ∧
    Sel.id ⟨"", "main", "", "", "", ""⟩ "nav" = .error .duplicate ∧
    Sel.pseudoElement ⟨"", "", "", "", "", "after"⟩ "before" = .error .duplicate :=
  ⟨(singleton_set_twice_duplicate _ "p").1 (by decide),
   (singleton_set_twice_duplicate _ "nav").2.1 (by decide),
   (singleton_set_twice_duplicate _ "before").2.2 (by decide)⟩

/-- C6, counterexample: with `element` already set (state `⟨"a", …⟩`), the
claim predicts the order-violation error for a second `element` call; the
source's first guard throws the duplicate-violation error instead. -/
theorem element_already_set_not_order_cex :
    Sel.element ⟨"a", "", "", "", "", ""⟩ "b" = Except.error SelErr.duplicate ∧
    (Except.error SelErr.duplicate : Except SelErr Sel) ≠ Except.error SelErr.order := by
  refine ⟨by simp [Sel.element], by simp⟩

/-- C6, amended: `element value` fails with the duplicate violation when
`element` is already set; fails with the order violation when `element` is
not set but a fragment of a later kind is present; otherwise succeeds and
returns the derived set with `cssElement = value`. -/
theorem element_guards (s : Sel) (v : String) :
    (s.cssElement ≠ "" → s.element v = .error .duplicate) ∧
    (s.cssElement = "" →
      (s.cssId ≠ "" ∨ s.cssClass ≠ "" ∨ s.cssAttr ≠ "" ∨
       s.cssPseudoClass ≠ "" ∨ s.cssPseudoElement ≠ "") →
      s.element v = .error .order) ∧
    (s.cssElement = "" → s.cssId = "" → s.cssClass = "" → s.cssAttr = "" →
      s.cssPseudoClass = "" → s.cssPseudoElement = "" →
      s.element v = .ok { s with cssElement := v }) := by
  refine ⟨fun h1 => ?_, fun h1 h2 => ?_, fun h1 h2 h3 h4 h5 h6 => ?_⟩
  · simp [Sel.element, h1]
  · simp only [Sel.element, h1]
    simp [h2]
  · simp [Sel.element, h1, h2, h3, h4, h5, h6]

/-- C6 amended, witness: the three guard outcomes at concrete states. -/
theorem element_guards_witness :
    Sel.element ⟨"x", "", "", "", "", ""⟩ "y" = Except.error SelErr.duplicate ∧
    Sel.element ⟨"", "m", "", "", "", ""⟩ "y" = Except.error SelErr.order ∧
    Sel.element cssSelectorBuilder "y" =
      Except.ok { cssSelectorBuilder with cssElement := "y" } :=
  ⟨(element_guards _ "y").1 (by decide),
   (element_guards _ "y").2.1 rfl (Or.inl (by decide)),
   (element_guards _ "y").2.2 rfl rfl rfl rfl rfl rfl⟩

/-- C8: the claim (leap year iff divisible by 4 and (not by 100 or by 400))
matches the code's own documentation, but the code is wrong for dates whose
full year lies in 0–99: `new Date(year, 1, 29)` reinterprets such a year as
`1900 + year`.  At year 0 the rule says leap (`gregorianLeap 0 = true`) while
the code answers `false` (it tests 1900).  The documented examples
2000/2012/1900/2001/2015 do behave as claimed. -/
theorem isLeapYear_year_zero_bug :
    isLeapYear 0 = false ∧ gregorianLeap 0 = true ∧
    isLeapYear 2000 = true ∧ isLeapYear 2012 = true ∧
    isLeapYear 1900 = false ∧ isLeapYear 2001 = false ∧ isLeapYear 2015 = false := by
  decide

/-! ## Success characterisations of the six methods -/

theorem element_ok_iff (s s1 : Sel) (v : String) :
    s.element v = .ok s1 ↔
      s.cssElement = "" ∧ s.cssId = "" ∧ s.cssClass = "" ∧ s.cssAttr = "" ∧
      s.cssPseudoClass = "" ∧ s.cssPseudoElement = "" ∧
      s1 = { s with cssElement := v } := by
  unfold Sel.element
  split_ifs with h1 h2
  · simp [h1]
  · rcases h2 with h | h | h | h | h <;> simp [h]
  · push_neg at h1 h2
    simp only [Except.ok.injEq, h1, h2.1, h2.2.1, h2.2.2.1, h2.2.2.2, ne_eq,
      not_true_eq_false, true_and]
    exact eq_comm

theorem id_ok_iff (s s1 : Sel) (v : String) :
    s.id v = .ok s1 ↔
      s.cssId = "" ∧ s.cssClass = "" ∧ s.cssAttr = "" ∧
      s.cssPseudoClass = "" ∧ s.cssPseudoElement = "" ∧
      s1 = { s with cssId := v } := by
  unfold Sel.id
  split_ifs with h1 h2
  · simp [h1]
  · rcases h2 with h | h | h | h <;> simp [h]
  · push_neg at h1 h2
    simp only [Except.ok.injEq, h1, h2.1, h2.2.1, h2.2.2, ne_eq,
      not_true_eq_false, true_and]
    exact eq_comm

theorem cls_ok_iff (s s1 : Sel) (v : String) :
    s.cls v = .ok s1 ↔
      s.cssAttr = "" ∧ s.cssPseudoClass = "" ∧ s.cssPseudoElement = "" ∧
      s1 = { s with cssClass := s.cssClass ++ "." ++ v } := by
  unfold Sel.cls
  split_ifs with h1
  · rcases h1 with h | h | h <;> simp [h]
  · push_neg at h1
    simp only [Except.ok.injEq, h1.1, h1.2.1, h1.2.2, true_and]
    exact eq_comm

theorem attr_ok_iff (s s1 : Sel) (v : String) :
    s.attr v = .ok s1 ↔
      s.cssPseudoClass = "" ∧ s.cssPseudoElement = "" ∧
      s1 = { s with cssAttr := v } := by
  unfold Sel.attr
  split_ifs with h1
  · rcases h1 with h | h <;> simp [h]
  · push_neg at h1
    simp only [Except.ok.injEq, h1.1, h1.2, true_and]
    exact eq_comm

theorem pseudoClass_ok_iff (s s1 : Sel) (v : String) :
    s.pseudoClass v = .ok s1 ↔
      s.cssPseudoElement = "" ∧
      s1 = { s with cssPseudoClass := s.cssPseudoClass ++ ":" ++ v } := by
  unfold Sel.pseudoClass
  split_ifs with h1
  · simp [h1]
  · push_neg at h1
    simp only [Except.ok.injEq, h1, true_and]
    exact eq_comm

theorem pseudoElement_ok_iff (s s1 : Sel) (v : String) :
    s.pseudoElement v = .ok s1 ↔
      s.cssPseudoElement = "" ∧ s1 = { s with cssPseudoElement := v } := by
  unfold Sel.pseudoElement
  split_ifs with h1
  · simp [h1]
  · push_neg at h1
    simp only [Except.ok.injEq, h1, true_and]
    exact eq_comm

/-- C10: an empty-string token is falsy, so the guards and the renderer treat
the fragment as absent.  A successful `element ""`, `id ""` or
`pseudoElement ""` call returns a value equal to its input (the field was and
stays `""`); after `element ""` a later `element v` still succeeds; a
successful `attr ""` leaves `cssAttr` empty; and an empty field renders to
the empty string in the corresponding `stringify` part. -/
theorem empty_token_treated_as_absent (s s1 : Sel) :
    (s.element "" = .ok s1 →
      s1 = s ∧ ∀ v, s1.element v = .ok { s1 with cssElement := v }) ∧
    (s.id "" = .ok s1 → s1 = s) ∧
    (s.attr "" = .ok s1 → s1.cssAttr = "") ∧
    (s.pseudoElement "" = .ok s1 → s1 = s) ∧
    (s.cssElement = "" → elementPart s = "") ∧
    (s.cssId = "" → idPart s = "") ∧
    (s.cssAttr = "" → attrPart s = "") ∧
    (s.cssPseudoElement = "" → psElemPart s = "") := by
  refine ⟨fun h => ?_, fun h => ?_, fun h => ?_, fun h => ?_,
    fun h => ?_, fun h => ?_, fun h => ?_, fun h => ?_⟩
  · rw [element_ok_iff] at h
    obtain ⟨h1, h2, h3, h4, h5, h6, hs⟩ := h
    have hs1 : s1 = s := by cases s; simp_all
    refine ⟨hs1, fun v => ?_⟩
    rw [element_ok_iff]
    exact ⟨by rw [hs1]; exact h1, by rw [hs1]; exact h2, by rw [hs1]; exact h3,
      by rw [hs1]; exact h4, by rw [hs1]; exact h5, by rw [hs1]; exact h6, rfl⟩
  · rw [id_ok_iff] at h
    obtain ⟨h1, h2, h3, h4, h5, hs⟩ := h
    cases s; simp_all
  · rw [attr_ok_iff] at h
    obtain ⟨h1, h2, hs⟩ := h
    rw [hs]
  · rw [pseudoElement_ok_iff] at h
    obtain ⟨h1, hs⟩ := h
    cases s; simp_all
  · simp [elementPart, h]
  · simp [idPart, h]
  · simp [attrPart, h]
  · simp [psElemPart, h]

/-- C10, witness: `element ""` on the base builder returns the base builder
unchanged and a later `element "x"` still succeeds; `attr ""` on a set with
`cssAttr = "old"` leaves the attribute fragment absent. -/
theorem empty_token_treated_as_absent_witness :
    Sel.element cssSelectorBuilder "x" =
      .ok { cssSelectorBuilder with cssElement := "x" } ∧
    (⟨"", "", "", "", "", ""⟩ : Sel).cssAttr = "" :=
  ⟨((empty_token_treated_as_absent cssSelectorBuilder cssSelectorBuilder).1 rfl).2 "x",
   (empty_token_treated_as_absent ⟨"", "", "", "old", "", ""⟩
      ⟨"", "", "", "", "", ""⟩).2.2.1 rfl⟩

/-- C2: every step of the store model (any of the six fragment methods or
`combine`, with any argument) allocates its result as a fresh object at the
end of the store and leaves every existing object — in particular the base
value the step was applied to — unchanged, with all its fragment fields
intact.  Hence independent derivation chains from a shared base cannot
affect each other. -/
theorem builder_step_allocates_fresh (st : List Obj) (op : StoreOp)
    (st1 : List Obj) (j : Nat) (h : stepS st op = some (.ok (st1, j))) :
    j = st.length ∧ ∀ k, k < st.length → st1[k]? = st[k]? := by
  cases op with
  | frag i fo =>
    simp only [stepS] at h
    split at h
    · split at h
      · simp only [Option.some.injEq, Except.ok.injEq, Prod.mk.injEq] at h
        obtain ⟨hst, hj⟩ := h
        subst hst
        exact ⟨hj.symm, fun k hk => List.getElem?_append_left hk⟩
      · simp at h
    · simp at h
  | combineAt i1 c i2 =>
    simp only [stepS] at h
    split at h
    · simp only [Option.some.injEq, Except.ok.injEq, Prod.mk.injEq] at h
      obtain ⟨hst, hj⟩ := h
      subst hst
      exact ⟨hj.symm, fun k hk => List.getElem?_append_left hk⟩
    · simp at h

/-- C2, witness: applying `element "a"` to the base object in a one-object
store leaves the base object at index 0 unchanged (the derived value lives at
the fresh index 1). -/
theorem builder_step_allocates_fresh_witness :
    ([Obj.sel cssSelectorBuilder,
      Obj.sel { cssSelectorBuilder with cssElement := "a" }] : List Obj)[0]? =
      ([Obj.sel cssSelectorBuilder] : List Obj)[0]? :=
  (builder_step_allocates_fresh [Obj.sel cssSelectorBuilder]
      (.frag 0 (.elementOp "a"))
      [Obj.sel cssSelectorBuilder,
       Obj.sel { cssSelectorBuilder with cssElement := "a" }] 1 rfl).2 0
    (by decide)

/-! ## Field contents of a successful derivation chain -/

/-- After a successful chain the singleton fields hold the value of the kind's
last call (or the start value), and the two accumulator fields hold the start
value followed by every appended `.token` / `:token` in call order. -/
theorem runChain_fields (ops : List FragOp) :
    ∀ (s0 s : Sel), runChain s0 ops = .ok s →
      s.cssElement = ops.foldl elemStep s0.cssElement ∧
      s.cssId = ops.foldl idStep s0.cssId ∧
      s.cssClass = s0.cssClass ++ renderTokens "." (classesOf ops) ∧
      s.cssAttr = ops.foldl attrStep s0.cssAttr ∧
      s.cssPseudoClass = s0.cssPseudoClass ++ renderTokens ":" (pseudoClassesOf ops) ∧
      s.cssPseudoElement = ops.foldl psElemStep s0.cssPseudoElement := by
  induction ops with
  | nil =>
    intro s0 s h
    simp only [runChain, Except.ok.injEq] at h
    subst h
    simp [classesOf, pseudoClassesOf, renderTokens, String.append_empty]
  | cons op rest ih =>
    intro s0 s h
    simp only [runChain] at h
    split at h
    next s1 ha =>
      have hrest := ih s1 s h
      obtain ⟨e1, e2, e3, e4, e5, e6⟩ := hrest
      cases op with
      | elementOp v =>
        simp only [Sel.apply] at ha
        obtain ⟨-, -, -, -, -, -, hs1⟩ := (element_ok_iff s0 s1 v).mp ha
        subst hs1
        refine ⟨?_, ?_, ?_, ?_, ?_, ?_⟩ <;>
          simp only [List.foldl_cons, elemStep, idStep, attrStep, psElemStep,
            classesOf, pseudoClassesOf] <;>
          first
            | exact e1 | exact e2 | exact e3 | exact e4 | exact e5 | exact e6
      | idOp v =>
        simp only [Sel.apply] at ha
        obtain ⟨-, -, -, -, -, hs1⟩ := (id_ok_iff s0 s1 v).mp ha
        subst hs1
        refine ⟨?_, ?_, ?_, ?_, ?_, ?_⟩ <;>
          simp only [List.foldl_cons, elemStep, idStep, attrStep, psElemStep,
            classesOf, pseudoClassesOf] <;>
          first
            | exact e1 | exact e2 | exact e3 | exact e4 | exact e5 | exact e6
      | clsOp v =>
        simp only [Sel.apply] at ha
        obtain ⟨-, -, -, hs1⟩ := (cls_ok_iff s0 s1 v).mp ha
        subst hs1
        refine ⟨?_, ?_, ?_, ?_, ?_, ?_⟩ <;>
          simp only [List.foldl_cons, elemStep, idStep, attrStep, psElemStep,
            classesOf, pseudoClassesOf, renderTokens]
        · exact e1
        · exact e2
        · rw [e3]; simp [String.append_assoc]
        · exact e4
        · exact e5
        · exact e6
      | attrOp v =>
        simp only [Sel.apply] at ha
        obtain ⟨-, -, hs1⟩ := (attr_ok_iff s0 s1 v).mp ha
        subst hs1
        refine ⟨?_, ?_, ?_, ?_, ?_, ?_⟩ <;>
          simp only [List.foldl_cons, elemStep, idStep, attrStep, psElemStep,
            classesOf, pseudoClassesOf] <;>
          first
            | exact e1 | exact e2 | exact e3 | exact e4 | exact e5 | exact e6
      | pseudoClassOp v =>
        simp only [Sel.apply] at ha
        obtain ⟨-, hs1⟩ := (pseudoClass_ok_iff s0 s1 v).mp ha
        subst hs1
        refine ⟨?_, ?_, ?_, ?_, ?_, ?_⟩ <;>
          simp only [List.foldl_cons, elemStep, idStep, attrStep, psElemStep,
            classesOf, pseudoClassesOf, renderTokens]
        · exact e1
        · exact e2
        · exact e3
        · exact e4
        · rw [e5]; simp [String.append_assoc]
        · exact e6
      | pseudoElementOp v =>
        simp only [Sel.apply] at ha
        obtain ⟨-, hs1⟩ := (pseudoElement_ok_iff s0 s1 v).mp ha
        subst hs1
        refine ⟨?_, ?_, ?_, ?_, ?_, ?_⟩ <;>
          simp only [List.foldl_cons, elemStep, idStep, attrStep, psElemStep,
            classesOf, pseudoClassesOf] <;>
          first
            | exact e1 | exact e2 | exact e3 | exact e4 | exact e5 | exact e6
    next e ha => simp at h

/-- A conditional of the shape `x ? x : ''` is the identity on strings. -/
theorem ite_self_empty (x : String) : (if x ≠ "" then x else "") = x := by
  split
  · rfl
  · next h =>
    push_neg at h
    exact h.symm

/-- C3: for every fragment set built by a valid (successful) derivation chain
from the base builder, `stringify` returns exactly the concatenation, in the
fixed kind order, of the element token, `#id` when present, each class token
prefixed by `.` in insertion order, `[attribute]` when present, each
pseudo-class token prefixed by `:` in insertion order, and `::pseudoElement`
when present, with no other separators. -/
theorem stringify_renders_fixed_order (ops : List FragOp) (s : Sel)
    (h : runChain cssSelectorBuilder ops = .ok s) :
    s.stringify = specRender ops := by
  obtain ⟨e1, e2, e3, e4, e5, e6⟩ := runChain_fields ops cssSelectorBuilder s h
  simp only [Sel.stringify, elementPart, idPart, clasPart, attrPart, psClasPart,
    psElemPart, specRender, elemOf, idOf, attrOf, psElemOf, e1, e2, e3, e4, e5, e6,
    cssSelectorBuilder, String.empty_append, ite_self_empty]

/-- C3, witness: the chain `id("main").class("container").class("editable")`
succeeds, satisfies the rendering equation, and produces the string
`#main.container.editable` of the claim's example. -/
theorem stringify_renders_fixed_order_witness :
    Sel.stringify ⟨"", "main", ".container.editable", "", "", ""⟩ =
      specRender [.idOp "main", .clsOp "container", .clsOp "editable"] ∧
    Sel.stringify ⟨"", "main", ".container.editable", "", "", ""⟩ =
      "#main.container.editable" :=
  ⟨stringify_renders_fixed_order [.idOp "main", .clsOp "container", .clsOp "editable"]
      ⟨"", "main", ".container.editable", "", "", ""⟩ rfl,
   by decide⟩

/-- C7: a builder call whose fragment kind has a strictly later kind already
present in the set fails with the order violation — stated for every
operation, excluding only the case where the operation's own singleton kind
is already set (which the duplicate rule of C5 intercepts first); and, as
the claim's unconditional instances, `class` after `attr`, `pseudoClass` or
`pseudoElement`, and `attr` after `pseudoClass` or `pseudoElement`, always
fail with the order violation. -/
theorem order_violation_on_later_kind :
    (∀ (s : Sel) (op : FragOp),
        (∃ k : Kind, s.present k = true ∧ op.kind.rank < k.rank) →
        ¬(op.kind.isSingleton = true ∧ s.present op.kind = true) →
        s.apply op = .error .order) ∧
    (∀ (s : Sel) (v : String),
        (s.cssAttr ≠ "" ∨ s.cssPseudoClass ≠ "" ∨ s.cssPseudoElement ≠ "") →
        s.cls v = .error .order) ∧
    (∀ (s : Sel) (v : String),
        (s.cssPseudoClass ≠ "" ∨ s.cssPseudoElement ≠ "") →
        s.attr v = .error .order) := by
  refine ⟨fun s op hk hnd => ?_, fun s v h => ?_, fun s v h => ?_⟩
  · obtain ⟨k, hk, hrank⟩ := hk
    cases op with
    | elementOp v =>
      have he : s.cssElement = "" := by
        simpa [FragOp.kind, Kind.isSingleton, Sel.present] using hnd
      have hd : s.cssId ≠ "" ∨ s.cssClass ≠ "" ∨ s.cssAttr ≠ "" ∨
          s.cssPseudoClass ≠ "" ∨ s.cssPseudoElement ≠ "" := by
        cases k with
        | kElement => simp [Kind.rank, FragOp.kind] at hrank
        | kId => exact Or.inl (by simpa [Sel.present] using hk)
        | kClass => exact Or.inr (Or.inl (by simpa [Sel.present] using hk))
        | kAttr => exact Or.inr (Or.inr (Or.inl (by simpa [Sel.present] using hk)))
        | kPseudoClass =>
          exact Or.inr (Or.inr (Or.inr (Or.inl (by simpa [Sel.present] using hk))))
        | kPseudoElement =>
          exact Or.inr (Or.inr (Or.inr (Or.inr (by simpa [Sel.present] using hk))))
      show s.element v = .error .order
      unfold Sel.element
      rw [if_neg (by simp [he]), if_pos hd]
    | idOp v =>
      have he : s.cssId = "" := by
        simpa [FragOp.kind, Kind.isSingleton, Sel.present] using hnd
      have hd : s.cssClass ≠ "" ∨ s.cssAttr ≠ "" ∨
          s.cssPseudoClass ≠ "" ∨ s.cssPseudoElement ≠ "" := by
        cases k with
        | kElement => simp [Kind.rank, FragOp.kind] at hrank
        | kId => simp [Kind.rank, FragOp.kind] at hrank
        | kClass => exact Or.inl (by simpa [Sel.present] using hk)
        | kAttr => exact Or.inr (Or.inl (by simpa [Sel.present] using hk))
        | kPseudoClass =>
          exact Or.inr (Or.inr (Or.inl (by simpa [Sel.present] using hk)))
        | kPseudoElement =>
          exact Or.inr (Or.inr (Or.inr (by simpa [Sel.present] using hk)))
      show s.id v = .error .order
      unfold Sel.id
      rw [if_neg (by simp [he]), if_pos hd]
    | clsOp v =>
      have hd : s.cssAttr ≠ "" ∨ s.cssPseudoClass ≠ "" ∨ s.cssPseudoElement ≠ "" := by
        cases k with
        | kElement => simp [Kind.rank, FragOp.kind] at hrank
        | kId => simp [Kind.rank, FragOp.kind] at hrank
        | kClass => simp [Kind.rank, FragOp.kind] at hrank
        | kAttr => exact Or.inl (by simpa [Sel.present] using hk)
        | kPseudoClass => exact Or.inr (Or.inl (by simpa [Sel.present] using hk))
        | kPseudoElement => exact Or.inr (Or.inr (by simpa [Sel.present] using hk))
      show s.cls v = .error .order
      unfold Sel.cls
      rw [if_pos hd]
    | attrOp v =>
      have hd : s.cssPseudoClass ≠ "" ∨ s.cssPseudoElement ≠ "" := by
        cases k with
        | kElement => simp [Kind.rank, FragOp.kind] at hrank
        | kId => simp [Kind.rank, FragOp.kind] at hrank
        | kClass => simp [Kind.rank, FragOp.kind] at hrank
        | kAttr => simp [Kind.rank, FragOp.kind] at hrank
        | kPseudoClass => exact Or.inl (by simpa [Sel.present] using hk)
        | kPseudoElement => exact Or.inr (by simpa [Sel.present] using hk)
      show s.attr v = .error .order
      unfold Sel.attr
      rw [if_pos hd]
    | pseudoClassOp v =>
      have hd : s.cssPseudoElement ≠ "" := by
        cases k with
        | kPseudoElement => simpa [Sel.present] using hk
        | kElement => simp [Kind.rank, FragOp.kind] at hrank
        | kId => simp [Kind.rank, FragOp.kind] at hrank
        | kClass => simp [Kind.rank, FragOp.kind] at hrank
        | kAttr => simp [Kind.rank, FragOp.kind] at hrank
        | kPseudoClass => simp [Kind.rank, FragOp.kind] at hrank
      show s.pseudoClass v = .error .order
      unfold Sel.pseudoClass
      rw [if_pos hd]
    | pseudoElementOp v =>
      exact absurd hrank (by cases k <;> simp [Kind.rank, FragOp.kind])
  · unfold Sel.cls
    rw [if_pos h]
  · unfold Sel.attr
    rw [if_pos h]

/-- C7, witness: `class` on a set with an attribute present (via the general
clause), `class` on a set with a pseudo-class present, and `attr` on a set
with a pseudo-element present, all fail with the order violation. -/
theorem order_violation_on_later_kind_witness :
    Sel.apply ⟨"", "", "", "q", "", ""⟩ (.clsOp "c") = .error .order ∧
    Sel.cls ⟨"", "", "", "", ":hover", ""⟩ "c" = .error .order ∧
    Sel.attr ⟨"", "", "", "", "", "after"⟩ "a" = .error .order :=
  ⟨order_violation_on_later_kind.1 ⟨"", "", "", "q", "", ""⟩ (.clsOp "c")
      ⟨.kAttr, by decide, by decide⟩ (by decide),
   order_violation_on_later_kind.2.1 ⟨"", "", "", "", ":hover", ""⟩ "c"
      (Or.inr (Or.inl (by decide))),
   order_violation_on_later_kind.2.2 ⟨"", "", "", "", "", "after"⟩ "a"
      (Or.inr (by decide))⟩

/-- C9: at UTC hour 0, minute 59 the function returns `289π/360 ≈ 2.52 rad`,
but the angle between the hands folded into the shorter arc is
`71π/360 ≈ 0.62 rad`: the mod-30 folding of the source is not the shorter-arc
angle between the hands (the claim's `[0, π]` bound does hold at this input,
yet the value returned is not the angle between the hands). -/
theorem angleBetweenClockHands_not_shorter_arc :
    angleBetweenClockHands 0 59 = 289 / 360 * Real.pi ∧
    shorterArcAngle 0 59 = 71 / 360 * Real.pi ∧
    angleBetweenClockHands 0 59 ≠ shorterArcAngle 0 59 := by
  have hres : resMarks 0 59 = 289 / 12 := by norm_num [resMarks]
  have hπ3 := Real.pi_gt_three
  have hπ0 := Real.pi_pos
  have h1 : angleBetweenClockHands 0 59 = 289 / 360 * Real.pi := by
    simp only [angleBetweenClockHands, hres]
    rw [if_neg ?_]
    · push_cast
      ring
    · have hgt : Real.pi / 30 * ((289 / 12 : ℚ) : ℝ) > 2 := by
        push_cast
        nlinarith
      intro heq
      rw [heq] at hgt
      norm_num at hgt
  have h2 : shorterArcAngle 0 59 = 71 / 360 * Real.pi := by
    simp only [shorterArcAngle]
    have habs : |2 * Real.pi * (((0 % 12 : Nat) : ℝ) + ((59 : Nat) : ℝ) / 60) / 12 -
        2 * Real.pi * ((59 : Nat) : ℝ) / 60| = 649 / 360 * Real.pi := by
      have heq : 2 * Real.pi * (((0 % 12 : Nat) : ℝ) + ((59 : Nat) : ℝ) / 60) / 12 -
          2 * Real.pi * ((59 : Nat) : ℝ) / 60 = -(649 / 360 * Real.pi) := by
        push_cast
        ring
      rw [heq, abs_neg, abs_of_nonneg (by positivity)]
    rw [habs]
    rw [show 2 * Real.pi - 649 / 360 * Real.pi = 71 / 360 * Real.pi by ring]
    rw [min_eq_right (by nlinarith)]
  refine ⟨h1, h2, ?_⟩
  rw [h1, h2]
  intro heq
  nlinarith
